import Mathlib

/-!
Verification of the ThorLog logging library (thorlog.h / thorlog_espidf.h).

The embedding targets the ESP-IDF platform the library is written for:
`int`, `long`, `unsigned int` and `unsigned long` are all 32-bit, `char` is
one byte.  Machine casts are modelled with explicit `% 2 ^ 32` / `% 256`.
The output sink is the `EspIdfPrint` adapter from thorlog_espidf.h, whose
writes are modelled as the list of characters sent to the console; calls to
the C library printf are modelled by the rendering functions below.
-/

/-- One variadic argument, as extracted by va_arg in ThorLogging::printFormat.
A string argument may be a null pointer (`none`).  A double argument carries
its printf "%.2f" rendering (float formatting is done by the C library and
is outside the scope of the embedded code). -/
inductive LogArg where
  | aStr : Option (List Char) → LogArg
  | aInt : Int → LogArg
  | aUInt : Nat → LogArg
  | aULong : Nat → LogArg
  | aDouble : List Char → LogArg
  | aPtr : Nat → LogArg
deriving DecidableEq

/-- va_arg(args, const char*).  A specifier/argument type mismatch is
undefined behaviour in the source; it is modelled as reading a null string. -/
def vaStr : List LogArg → Option (List Char) × List LogArg
  | LogArg.aStr s :: r => (s, r)
  | _ :: r => (none, r)
  | [] => (none, [])

/-- va_arg(args, int) and va_arg(args, long) (both 32-bit on ESP-IDF).
Type mismatch is undefined behaviour, modelled as reading 0. -/
def vaInt : List LogArg → Int × List LogArg
  | LogArg.aInt i :: r => (i, r)
  | _ :: r => (0, r)
  | [] => (0, [])

/-- va_arg(args, unsigned int).  Mismatch modelled as 0. -/
def vaUInt : List LogArg → Nat × List LogArg
  | LogArg.aUInt u :: r => (u, r)
  | _ :: r => (0, r)
  | [] => (0, [])

/-- va_arg(args, unsigned long).  Mismatch modelled as 0. -/
def vaULong : List LogArg → Nat × List LogArg
  | LogArg.aULong u :: r => (u, r)
  | _ :: r => (0, r)
  | [] => (0, [])

/-- va_arg(args, double).  Mismatch modelled as an empty rendering. -/
def vaDouble : List LogArg → List Char × List LogArg
  | LogArg.aDouble d :: r => (d, r)
  | _ :: r => ([], r)
  | [] => ([], [])

/-- va_arg(args, void*), reinterpreted as uintptr_t.  Mismatch modelled as 0. -/
def vaPtr : List LogArg → Nat × List LogArg
  | LogArg.aPtr p :: r => (p, r)
  | _ :: r => (0, r)
  | [] => (0, [])

/-- static_cast to a 32-bit unsigned integer (unsigned int / unsigned long on
the 32-bit ESP-IDF target): the value modulo 2^32. -/
def toU32 (i : Int) : Nat := (i % 4294967296).toNat

/-- static_cast<char>: the low byte of the integer, as the byte written by
printf("%c", ...). -/
def charOfInt (i : Int) : Char := Char.ofNat (i % 256).toNat

/-- One lowercase hexadecimal digit, as produced by printf %lx / %x. -/
def hexDigit : Nat → Char
  | 0 => '0'
  | 1 => '1'
  | 2 => '2'
  | 3 => '3'
  | 4 => '4'
  | 5 => '5'
  | 6 => '6'
  | 7 => '7'
  | 8 => '8'
  | 9 => '9'
  | 10 => 'a'
  | 11 => 'b'
  | 12 => 'c'
  | 13 => 'd'
  | 14 => 'e'
  | _ => 'f'

/-- Lowercase hexadecimal rendering of an unsigned value with no prefix and
no padding, most significant digit first, as printed by printf "%lx" / "%x"
(zero renders as the single digit 0). -/
def hexStr (n : Nat) : List Char :=
  if _h : n < 16 then [hexDigit n] else hexStr (n / 16) ++ [hexDigit (n % 16)]
termination_by n
decreasing_by exact Nat.div_lt_self (by omega) (by omega)

/-- One decimal digit character. -/
def decDigit (n : Nat) : Char :=
  if n = 0 then '0' else if n = 1 then '1' else if n = 2 then '2'
  else if n = 3 then '3' else if n = 4 then '4' else if n = 5 then '5'
  else if n = 6 then '6' else if n = 7 then '7' else if n = 8 then '8'
  else '9'

/-- Decimal rendering of an unsigned value, as printed by printf "%lu". -/
def decStr (n : Nat) : List Char :=
  if _h : n < 10 then [decDigit n] else decStr (n / 10) ++ [decDigit (n % 10)]
termination_by n
decreasing_by exact Nat.div_lt_self (by omega) (by omega)

/-- Signed decimal rendering, as printed by printf "%ld". -/
def sdecStr (i : Int) : List Char :=
  if i < 0 then '-' :: decStr i.natAbs else decStr i.toNat

namespace EspIdfPrint

/-- The while loop of EspIdfPrint::printBinary: starting from buffer position
64, extract the least significant bit and shift right while num > 0 and the
buffer position is positive; the accumulator is the filled buffer suffix
&buffer[pos], most significant bit first. -/
def printBinaryLoop : Nat → Nat → List Char → List Char
  | _, 0, acc => acc
  | num, pos + 1, acc =>
      if num > 0 then
        printBinaryLoop (num / 2) pos ((if num % 2 = 1 then '1' else '0') :: acc)
      else acc

/-- EspIdfPrint::printBinary: zero prints the single digit 0, otherwise the
bits collected by the loop are printed from the first significant digit. -/
def printBinary (num : Nat) : List Char :=
  if num = 0 then ['0'] else printBinaryLoop num 64 []

/-- EspIdfPrint::printUnsignedLong: decimal via printf %lu, hexadecimal via
printf %lx, binary via printBinary, any other base falls back to decimal. -/
def printUnsignedLong (num : Nat) (base : Int) : List Char :=
  if base = 10 then decStr num
  else if base = 16 then hexStr num
  else if base = 2 then printBinary num
  else decStr num

/-- EspIdfPrint::printSignedLong: decimal via printf %ld; hexadecimal prints
the two's-complement unsigned bit pattern via printf %lx (a negative value is
cast to unsigned long first); binary casts to unsigned long and uses
printBinary; any other base falls back to decimal. -/
def printSignedLong (num : Int) (base : Int) : List Char :=
  if base = 10 then sdecStr num
  else if base = 16 then
    (if num < 0 then hexStr (toU32 num) else hexStr num.toNat)
  else if base = 2 then printBinary (toU32 num)
  else sdecStr num

/-- EspIdfPrint::print(const char*): a null pointer writes nothing. -/
def printStr : Option (List Char) → List Char
  | none => []
  | some cs => cs

end EspIdfPrint

/-- The printfunction hook type (void (*)(ThorPrint*, int)): given the level,
the characters the hook writes to the sink. -/
def PrintFn := Int → List Char

/-- The ThorLogging engine state: _level, _showLevel, the borrowed sink
reference _logOutput (modelled as an opaque identifier; its writes are the
traces returned by the logging operations), and the two hook fields, here
named prefixFn and suffixFn. -/
structure ThorLogging where
  level : Int
  showLevel : Bool
  logOutput : Nat
  prefixFn : Option PrintFn
  suffixFn : Option PrintFn

namespace ThorLogging

/-- thorlog_constrain, instantiated at int. -/
def thorlog_constrain (val mn mx : Int) : Int :=
  if val < mn then mn else if val > mx then mx else val

/-- The default constructor: level SILENT (0), _showLevel true, null sink,
null hooks. -/
def init : ThorLogging :=
  { level := 0, showLevel := true, logOutput := 0,
    prefixFn := none, suffixFn := none }

/-- ThorLogging::begin. -/
def begin (st : ThorLogging) (lv : Int) (output : Nat) (sl : Bool) : ThorLogging :=
  { st with level := thorlog_constrain lv 0 6, showLevel := sl, logOutput := output }

/-- ThorLogging::setLevel. -/
def setLevel (st : ThorLogging) (lv : Int) : ThorLogging :=
  { st with level := thorlog_constrain lv 0 6 }

/-- ThorLogging::getLevel. -/
def getLevel (st : ThorLogging) : Int := st.level

/-- ThorLogging::setShowLevel. -/
def setShowLevel (st : ThorLogging) (sl : Bool) : ThorLogging :=
  { st with showLevel := sl }

/-- ThorLogging::getShowLevel. -/
def getShowLevel (st : ThorLogging) : Bool := st.showLevel

/-- ThorLogging::setPrefix (the field is named prefixFn here). -/
def setPrefixFn (st : ThorLogging) (f : PrintFn) : ThorLogging :=
  { st with prefixFn := some f }

/-- ThorLogging::clearPrefix. -/
def clearPrefixFn (st : ThorLogging) : ThorLogging :=
  { st with prefixFn := none }

/-- ThorLogging::setSuffix. -/
def setSuffix (st : ThorLogging) (f : PrintFn) : ThorLogging :=
  { st with suffixFn := some f }

/-- ThorLogging::clearSuffix. -/
def clearSuffix (st : ThorLogging) : ThorLogging :=
  { st with suffixFn := none }

/-- The seven leading-zero conditionals of the %X branch of
ThorLogging::printFormat, followed by the sink hexadecimal write. -/
def printHexPadded (x : Nat) : List Char :=
  (if x < 0x10000000 then ['0'] else []) ++
  (if x < 0x1000000 then ['0'] else []) ++
  (if x < 0x100000 then ['0'] else []) ++
  (if x < 0x10000 then ['0'] else []) ++
  (if x < 0x1000 then ['0'] else []) ++
  (if x < 0x100 then ['0'] else []) ++
  (if x < 0x10 then ['0'] else []) ++
  EspIdfPrint.printUnsignedLong x 16

/-- ThorLogging::printFormat: dispatch on the conversion specifier character,
returning the characters written to the sink and the va_list state after the
call.  The if-else chain mirrors the source; there is no final else branch in
the source, so an unrecognized specifier writes nothing and consumes no
argument. -/
def printFormat (format : Char) (args : List LogArg) : List Char × List LogArg :=
  if format = '%' then (['%'], args)
  else if format = 's' then
    let r := vaStr args; (EspIdfPrint.printStr r.1, r.2)
  else if format = 'c' then
    let r := vaInt args; ([charOfInt r.1], r.2)
  else if format = 'C' then
    let r := vaInt args;
    (if 0x20 ≤ r.1 ∧ r.1 < 0x7F then [charOfInt r.1]
     else ['0', 'x'] ++ (if r.1 < 0x10 then ['0'] else []) ++
          EspIdfPrint.printUnsignedLong (toU32 r.1) 16, r.2)
  else if format = 'd' ∨ format = 'i' then
    let r := vaInt args; (EspIdfPrint.printSignedLong r.1 10, r.2)
  else if format = 'l' then
    let r := vaInt args; (EspIdfPrint.printSignedLong r.1 10, r.2)
  else if format = 'u' then
    let r := vaULong args; (EspIdfPrint.printUnsignedLong r.1 10, r.2)
  else if format = 'x' then
    let r := vaUInt args; (EspIdfPrint.printUnsignedLong r.1 16, r.2)
  else if format = 'X' then
    let r := vaULong args; (['0', 'x'] ++ printHexPadded r.1, r.2)
  else if format = 'b' then
    let r := vaUInt args; (EspIdfPrint.printUnsignedLong r.1 2, r.2)
  else if format = 'B' then
    let r := vaUInt args; (['0', 'b'] ++ EspIdfPrint.printUnsignedLong r.1 2, r.2)
  else if format = 't' then
    let r := vaInt args; (if r.1 ≠ 0 then ['t'] else ['f'], r.2)
  else if format = 'T' then
    let r := vaInt args;
    (if r.1 ≠ 0 then ['t', 'r', 'u', 'e'] else ['f', 'a', 'l', 's', 'e'], r.2)
  else if format = 'D' ∨ format = 'F' then
    let r := vaDouble args; (r.1, r.2)
  else if format = 'p' then
    let r := vaPtr args; (['0', 'x'] ++ EspIdfPrint.printUnsignedLong r.1 16, r.2)
  else ([], args)

/-- ThorLogging::print: the scan loop over the format string.  A character
other than the percent sign is written verbatim; a percent sign consumes the
following character as the specifier, breaking out of the loop if the string
ends there.  Returns the sink writes and the final va_list state. -/
def print : List Char → List LogArg → List Char × List LogArg
  | [], args => ([], args)
  | c :: rest, args =>
    if c = '%' then
      match rest with
      | [] => ([], args)
      | sp :: rest2 =>
        let r := printFormat sp args
        let r2 := print rest2 r.2
        (r.1 ++ r2.1, r2.2)
    else
      let r2 := print rest args
      (c :: r2.1, r2.2)

/-- The static level tag table "FEWITV" of ThorLogging::printLevel. -/
def levelsTable : List Char := ['F', 'E', 'W', 'I', 'T', 'V']

/-- The C array access levels[i]: an in-bounds index yields the table entry;
a negative or too-large index is an out-of-bounds read (undefined behaviour),
modelled as none. -/
def levelsIndex (i : Int) : Option Char :=
  if 0 ≤ i then levelsTable[i.toNat]? else none

/-- ThorLogging::printLevel: gate on the threshold, defensively re-clamp the
level at SILENT, run the prefix hook, emit the level tag and ": " when
_showLevel is set, interpret the format string, run the suffix hook, and
finish with THORLOG_CR (the single character carriage return) when cr is
set.  Returns the engine state (unchanged: the body assigns no field) and
the sink writes.  An out-of-bounds tag read is modelled as writing no tag
character. -/
def printLevel (st : ThorLogging) (level : Int) (cr : Bool)
    (msg : List Char) (args : List LogArg) : ThorLogging × List Char :=
  if level > st.level then (st, [])
  else
    let lv := if level < 0 then 0 else level
    let preOut := match st.prefixFn with
      | some f => f lv
      | none => []
    let tagOut := if st.showLevel then (levelsIndex (lv - 1)).toList ++ [':', ' '] else []
    let bodyOut := (print msg args).1
    let sufOut := match st.suffixFn with
      | some f => f lv
      | none => []
    let crOut := if cr then ['\r'] else []
    (st, preOut ++ (tagOut ++ (bodyOut ++ (sufOut ++ crOut))))

/-- ThorLogging::fatal. -/
def fatal (st : ThorLogging) (msg : List Char) (args : List LogArg) :
    ThorLogging × List Char := printLevel st 1 false msg args

/-- ThorLogging::fatalln. -/
def fatalln (st : ThorLogging) (msg : List Char) (args : List LogArg) :
    ThorLogging × List Char := printLevel st 1 true msg args

/-- ThorLogging::error. -/
def error (st : ThorLogging) (msg : List Char) (args : List LogArg) :
    ThorLogging × List Char := printLevel st 2 false msg args

/-- ThorLogging::errorln. -/
def errorln (st : ThorLogging) (msg : List Char) (args : List LogArg) :
    ThorLogging × List Char := printLevel st 2 true msg args

/-- ThorLogging::warning. -/
def warning (st : ThorLogging) (msg : List Char) (args : List LogArg) :
    ThorLogging × List Char := printLevel st 3 false msg args

/-- ThorLogging::warningln. -/
def warningln (st : ThorLogging) (msg : List Char) (args : List LogArg) :
    ThorLogging × List Char := printLevel st 3 true msg args

/-- ThorLogging::notice (THORLOG_LEVEL_NOTICE = 4, same as INFO). -/
def notice (st : ThorLogging) (msg : List Char) (args : List LogArg) :
    ThorLogging × List Char := printLevel st 4 false msg args

/-- ThorLogging::noticeln. -/
def noticeln (st : ThorLogging) (msg : List Char) (args : List LogArg) :
    ThorLogging × List Char := printLevel st 4 true msg args

/-- ThorLogging::info (THORLOG_LEVEL_INFO = 4). -/
def info (st : ThorLogging) (msg : List Char) (args : List LogArg) :
    ThorLogging × List Char := printLevel st 4 false msg args

/-- ThorLogging::infoln. -/
def infoln (st : ThorLogging) (msg : List Char) (args : List LogArg) :
    ThorLogging × List Char := printLevel st 4 true msg args

/-- ThorLogging::trace. -/
def trace (st : ThorLogging) (msg : List Char) (args : List LogArg) :
    ThorLogging × List Char := printLevel st 5 false msg args

/-- ThorLogging::traceln. -/
def traceln (st : ThorLogging) (msg : List Char) (args : List LogArg) :
    ThorLogging × List Char := printLevel st 5 true msg args

/-- ThorLogging::verbose. -/
def verbose (st : ThorLogging) (msg : List Char) (args : List LogArg) :
    ThorLogging × List Char := printLevel st 6 false msg args

/-- ThorLogging::verboseln. -/
def verboseln (st : ThorLogging) (msg : List Char) (args : List LogArg) :
    ThorLogging × List Char := printLevel st 6 true msg args

end ThorLogging

/-!
Specification-side reference definitions, used to compare the embedded code
against the spec's wording.
-/

/-- Specification-side rendering: exactly d lowercase hexadecimal digits of
x, zero-padded on the left, most significant digit first. -/
def specHexPad : Nat → Nat → List Char
  | 0, _ => []
  | d + 1, x => specHexPad d (x / 16) ++ [hexDigit (x % 16)]

/-- Whether the left-to-right scan of ThorLogging::print over the format
string ends in literal-scan position, so that a percent sign appended at the
end is read as a trailing lone percent sign (and not as the specifier of a
preceding directive). -/
def scanEndsClean : List Char → Bool
  | [] => true
  | c :: rest =>
    if c = '%' then
      match rest with
      | [] => false
      | _ :: r2 => scanEndsClean r2
    else scanEndsClean rest

/-!
Helper lemmas.
-/

theorem hexStr_of_lt {n : Nat} (h : n < 16) : hexStr n = [hexDigit n] := by
  rw [hexStr, dif_pos h]

theorem hexStr_of_ge {n : Nat} (h : 16 ≤ n) :
    hexStr n = hexStr (n / 16) ++ [hexDigit (n % 16)] := by
  rw [hexStr, dif_neg (by omega)]

theorem specHexPad_length (d x : Nat) : (specHexPad d x).length = d := by
  induction d generalizing x with
  | zero => rfl
  | succ d ih => simp [specHexPad, ih]

theorem specHexPad_high_zero (d x : Nat) (h : x < 16 ^ d) :
    specHexPad (d + 1) x = '0' :: specHexPad d x := by
  induction d generalizing x with
  | zero =>
    have hx : x = 0 := by simpa using h
    subst hx
    rfl
  | succ d ih =>
    have hdiv : x / 16 < 16 ^ d := by
      rw [Nat.div_lt_iff_lt_mul (by omega)]
      calc x < 16 ^ (d + 1) := h
        _ = 16 ^ d * 16 := by ring
    calc specHexPad (d + 1 + 1) x
        = specHexPad (d + 1) (x / 16) ++ [hexDigit (x % 16)] := rfl
      _ = ('0' :: specHexPad d (x / 16)) ++ [hexDigit (x % 16)] := by rw [ih _ hdiv]
      _ = '0' :: specHexPad (d + 1) x := rfl

theorem specHexPad_zeros (k d x : Nat) (h : x < 16 ^ d) :
    specHexPad (d + k) x = List.replicate k '0' ++ specHexPad d x := by
  induction k with
  | zero => rfl
  | succ k ih =>
    have hk : x < 16 ^ (d + k) :=
      lt_of_lt_of_le h (Nat.pow_le_pow_right (by omega) (by omega))
    calc specHexPad (d + (k + 1)) x
        = specHexPad ((d + k) + 1) x := by ring_nf
      _ = '0' :: specHexPad (d + k) x := specHexPad_high_zero _ _ hk
      _ = '0' :: (List.replicate k '0' ++ specHexPad d x) := by rw [ih]
      _ = List.replicate (k + 1) '0' ++ specHexPad d x := rfl

theorem specHexPad_eq_hexStr (d : Nat) : ∀ x : Nat, x < 16 ^ (d + 1) →
    (16 ^ d ≤ x ∨ d = 0) → specHexPad (d + 1) x = hexStr x := by
  induction d with
  | zero =>
    intro x hlt _
    have h16 : x < 16 := by simpa using hlt
    have : x % 16 = x := Nat.mod_eq_of_lt h16
    simp [specHexPad, hexStr_of_lt h16, this]
  | succ d ih =>
    intro x hlt hge
    have hge' : 16 ^ (d + 1) ≤ x := by
      rcases hge with h | h
      · exact h
      · omega
    have hx16 : 16 ≤ x :=
      le_trans (by calc (16 : Nat) = 16 ^ 1 := (pow_one 16).symm
                    _ ≤ 16 ^ (d + 1) := Nat.pow_le_pow_right (by omega) (by omega)) hge'
    have hdivlt : x / 16 < 16 ^ (d + 1) := by
      rw [Nat.div_lt_iff_lt_mul (by omega)]
      calc x < 16 ^ (d + 1 + 1) := hlt
        _ = 16 ^ (d + 1) * 16 := by ring
    have hdivge : 16 ^ d ≤ x / 16 := by
      rw [Nat.le_div_iff_mul_le (by omega)]
      calc 16 ^ d * 16 = 16 ^ (d + 1) := by ring
        _ ≤ x := hge'
    calc specHexPad (d + 1 + 1) x
        = specHexPad (d + 1) (x / 16) ++ [hexDigit (x % 16)] := rfl
      _ = hexStr (x / 16) ++ [hexDigit (x % 16)] := by rw [ih _ hdivlt (Or.inl hdivge)]
      _ = hexStr x := (hexStr_of_ge hx16).symm

theorem specHexPad_eq_map_range (d : Nat) : ∀ x : Nat,
    specHexPad d x = (List.range d).reverse.map (fun i => hexDigit (x / 16 ^ i % 16)) := by
  induction d with
  | zero => intro x; rfl
  | succ d ih =>
    intro x
    rw [List.range_succ_eq_map]
    simp only [List.reverse_cons, List.map_append, List.map_map, List.map_reverse]
    have hfun : (fun i => hexDigit (x / 16 ^ i % 16)) ∘ Nat.succ
        = fun i => hexDigit (x / 16 / 16 ^ i % 16) := by
      funext i
      simp only [Function.comp]
      rw [Nat.div_div_eq_div_mul, ← pow_succ']
    calc specHexPad (d + 1) x
        = specHexPad d (x / 16) ++ [hexDigit (x % 16)] := rfl
      _ = (List.range d).reverse.map (fun i => hexDigit (x / 16 / 16 ^ i % 16))
            ++ [hexDigit (x % 16)] := by rw [ih]
      _ = _ := by
          rw [← hfun]
          simp [List.map_reverse, Function.comp]

theorem specHexPad8_eq (d x : Nat) (hd : d ≤ 7) (hlt : x < 16 ^ (d + 1))
    (hge : 16 ^ d ≤ x ∨ d = 0) :
    specHexPad 8 x = List.replicate (7 - d) '0' ++ hexStr x := by
  have h8 : (8 : Nat) = (d + 1) + (7 - d) := by omega
  rw [h8, specHexPad_zeros (7 - d) (d + 1) x hlt, specHexPad_eq_hexStr d x hlt hge]

theorem printHexPadded_eq (x : Nat) (hx : x < 4294967296) :
    ThorLogging.printHexPadded x = specHexPad 8 x := by
  have hu : EspIdfPrint.printUnsignedLong x 16 = hexStr x := by
    simp [EspIdfPrint.printUnsignedLong]
  rcases Nat.lt_or_ge x 16 with h1 | h1
  · rw [specHexPad8_eq 0 x (by omega) (by simpa using h1) (Or.inr rfl)]
    simp only [ThorLogging.printHexPadded, hu]
    rw [if_pos (show x < 268435456 by omega),
      if_pos (show x < 16777216 by omega),
      if_pos (show x < 1048576 by omega),
      if_pos (show x < 65536 by omega),
      if_pos (show x < 4096 by omega),
      if_pos (show x < 256 by omega),
      if_pos (show x < 16 by omega)]
    rfl
  · rcases Nat.lt_or_ge x 256 with h2 | h2
    · rw [specHexPad8_eq 1 x (by omega) (by simpa using h2) (Or.inl (by simpa using h1))]
      simp only [ThorLogging.printHexPadded, hu]
      rw [if_pos (show x < 268435456 by omega),
        if_pos (show x < 16777216 by omega),
        if_pos (show x < 1048576 by omega),
        if_pos (show x < 65536 by omega),
        if_pos (show x < 4096 by omega),
        if_pos (show x < 256 by omega),
        if_neg (show ¬ x < 16 by omega)]
      rfl
    · rcases Nat.lt_or_ge x 4096 with h3 | h3
      · rw [specHexPad8_eq 2 x (by omega) (by simpa using h3) (Or.inl (by simpa using h2))]
        simp only [ThorLogging.printHexPadded, hu]
        rw [if_pos (show x < 268435456 by omega),
          if_pos (show x < 16777216 by omega),
          if_pos (show x < 1048576 by omega),
          if_pos (show x < 65536 by omega),
          if_pos (show x < 4096 by omega),
          if_neg (show ¬ x < 256 by omega),
          if_neg (show ¬ x < 16 by omega)]
        rfl
      · rcases Nat.lt_or_ge x 65536 with h4 | h4
        · rw [specHexPad8_eq 3 x (by omega) (by simpa using h4) (Or.inl (by simpa using h3))]
          simp only [ThorLogging.printHexPadded, hu]
          rw [if_pos (show x < 268435456 by omega),
            if_pos (show x < 16777216 by omega),
            if_pos (show x < 1048576 by omega),
            if_pos (show x < 65536 by omega),
            if_neg (show ¬ x < 4096 by omega),
            if_neg (show ¬ x < 256 by omega),
            if_neg (show ¬ x < 16 by omega)]
          rfl
        · rcases Nat.lt_or_ge x 1048576 with h5 | h5
          · rw [specHexPad8_eq 4 x (by omega) (by simpa using h5) (Or.inl (by simpa using h4))]
            simp only [ThorLogging.printHexPadded, hu]
            rw [if_pos (show x < 268435456 by omega),
              if_pos (show x < 16777216 by omega),
              if_pos (show x < 1048576 by omega),
              if_neg (show ¬ x < 65536 by omega),
              if_neg (show ¬ x < 4096 by omega),
              if_neg (show ¬ x < 256 by omega),
              if_neg (show ¬ x < 16 by omega)]
            rfl
          · rcases Nat.lt_or_ge x 16777216 with h6 | h6
            · rw [specHexPad8_eq 5 x (by omega) (by simpa using h6) (Or.inl (by simpa using h5))]
              simp only [ThorLogging.printHexPadded, hu]
              rw [if_pos (show x < 268435456 by omega),
                if_pos (show x < 16777216 by omega),
                if_neg (show ¬ x < 1048576 by omega),
                if_neg (show ¬ x < 65536 by omega),
                if_neg (show ¬ x < 4096 by omega),
                if_neg (show ¬ x < 256 by omega),
                if_neg (show ¬ x < 16 by omega)]
              rfl
            · rcases Nat.lt_or_ge x 268435456 with h7 | h7
              · rw [specHexPad8_eq 6 x (by omega) (by simpa using h7) (Or.inl (by simpa using h6))]
                simp only [ThorLogging.printHexPadded, hu]
                rw [if_pos (show x < 268435456 by omega),
                  if_neg (show ¬ x < 16777216 by omega),
                  if_neg (show ¬ x < 1048576 by omega),
                  if_neg (show ¬ x < 65536 by omega),
                  if_neg (show ¬ x < 4096 by omega),
                  if_neg (show ¬ x < 256 by omega),
                  if_neg (show ¬ x < 16 by omega)]
                rfl
              · rw [specHexPad8_eq 7 x (by omega) (by simpa using hx) (Or.inl (by simpa using h7))]
                simp only [ThorLogging.printHexPadded, hu]
                rw [if_neg (show ¬ x < 268435456 by omega),
                  if_neg (show ¬ x < 16777216 by omega),
                  if_neg (show ¬ x < 1048576 by omega),
                  if_neg (show ¬ x < 65536 by omega),
                  if_neg (show ¬ x < 4096 by omega),
                  if_neg (show ¬ x < 256 by omega),
                  if_neg (show ¬ x < 16 by omega)]
                rfl

theorem printBinaryLoop_eq (pos : Nat) : ∀ num acc, num < 2 ^ pos →
    EspIdfPrint.printBinaryLoop num pos acc
      = ((Nat.digits 2 num).map (fun d => if d = 1 then '1' else '0')).reverse ++ acc := by
  induction pos with
  | zero =>
    intro num acc h
    have h0 : num = 0 := by simpa using h
    subst h0
    simp [EspIdfPrint.printBinaryLoop]
  | succ p ih =>
    intro num acc h
    by_cases h0 : num = 0
    · subst h0
      simp [EspIdfPrint.printBinaryLoop]
    · have hpos : num > 0 := Nat.pos_of_ne_zero h0
      have hdiv : num / 2 < 2 ^ p := by
        rw [Nat.div_lt_iff_lt_mul (by omega)]
        calc num < 2 ^ (p + 1) := h
          _ = 2 ^ p * 2 := by ring
      rw [show EspIdfPrint.printBinaryLoop num (p + 1) acc
            = EspIdfPrint.printBinaryLoop (num / 2) p
                ((if num % 2 = 1 then '1' else '0') :: acc) by
          simp [EspIdfPrint.printBinaryLoop, hpos]]
      rw [ih _ _ hdiv, Nat.digits_def' (by norm_num : (1:Nat) < 2) hpos]
      simp [List.append_assoc]

theorem printBinary_eq (num : Nat) (h : num < 2 ^ 64) :
    EspIdfPrint.printBinary num
      = if num = 0 then ['0']
        else ((Nat.digits 2 num).map (fun d => if d = 1 then '1' else '0')).reverse := by
  by_cases h0 : num = 0
  · simp [EspIdfPrint.printBinary, h0]
  · rw [EspIdfPrint.printBinary, if_neg h0, if_neg h0,
      printBinaryLoop_eq 64 num [] h, List.append_nil]

theorem printBinary_head (num : Nat) (h : num < 2 ^ 64) (h0 : num ≠ 0) :
    (EspIdfPrint.printBinary num).head? = some '1' := by
  rw [printBinary_eq num h, if_neg h0, List.head?_reverse, List.getLast?_map]
  have hne : Nat.digits 2 num ≠ [] := Nat.digits_ne_nil_iff_ne_zero.mpr h0
  rw [List.getLast?_eq_getLast _ hne]
  have hlast : (Nat.digits 2 num).getLast hne = 1 := by
    have ha : (Nat.digits 2 num).getLast hne ≠ 0 := Nat.getLast_digit_ne_zero 2 h0
    have hb : (Nat.digits 2 num).getLast hne < 2 :=
      Nat.digits_lt_base (by norm_num) (List.getLast_mem hne)
    omega
  simp [hlast]

theorem hexDigit_ne_dash (n : Nat) : hexDigit n ≠ '-' := by
  unfold hexDigit
  split <;> decide

theorem dash_not_mem_hexStr (n : Nat) : '-' ∉ hexStr n := by
  induction n using Nat.strong_induction_on with
  | _ n ih =>
    rw [hexStr]
    split_ifs with h
    · simp [hexDigit_ne_dash n]
      intro he
      exact hexDigit_ne_dash n he.symm
    · intro hmem
      rcases List.mem_append.mp hmem with hm | hm
      · exact ih (n / 16) (Nat.div_lt_self (by omega) (by omega)) hm
      · simp at hm
        exact hexDigit_ne_dash _ hm.symm

theorem dash_not_mem_printBinaryLoop (pos : Nat) : ∀ num acc, '-' ∉ acc →
    '-' ∉ EspIdfPrint.printBinaryLoop num pos acc := by
  induction pos with
  | zero => intro num acc hacc; simpa [EspIdfPrint.printBinaryLoop] using hacc
  | succ p ih =>
    intro num acc hacc
    by_cases h0 : num > 0
    · rw [show EspIdfPrint.printBinaryLoop num (p + 1) acc
            = EspIdfPrint.printBinaryLoop (num / 2) p
                ((if num % 2 = 1 then '1' else '0') :: acc) by
          simp [EspIdfPrint.printBinaryLoop, h0]]
      apply ih
      intro hm
      rcases List.mem_cons.mp hm with hm | hm
      · split_ifs at hm <;> simp_all
      · exact hacc hm
    · simpa [EspIdfPrint.printBinaryLoop, h0] using hacc

theorem dash_not_mem_printBinary (n : Nat) : '-' ∉ EspIdfPrint.printBinary n := by
  rw [EspIdfPrint.printBinary]
  split_ifs with h
  · decide
  · exact dash_not_mem_printBinaryLoop 64 n [] (by simp)

theorem printLevel_fst (st : ThorLogging) (level : Int) (cr : Bool)
    (msg : List Char) (args : List LogArg) :
    (ThorLogging.printLevel st level cr msg args).1 = st := by
  unfold ThorLogging.printLevel
  split <;> rfl

/-- C4: for every integer input v, both begin(v, sink, showLevel) and
setLevel(v) store the threshold clamped into [SILENT = 0, VERBOSE = 6]:
inputs below 0 become 0, inputs above 6 become 6, in-range inputs are kept
unchanged, and getLevel returns that clamped value (always within bounds). -/
theorem c4_threshold_clamped (st : ThorLogging) (v : Int) (out : Nat) (sl : Bool) :
    ThorLogging.getLevel (ThorLogging.begin st v out sl)
        = (if v < 0 then 0 else if 6 < v then 6 else v)
  ∧ ThorLogging.getLevel (ThorLogging.setLevel st v)
        = (if v < 0 then 0 else if 6 < v then 6 else v)
  ∧ 0 ≤ ThorLogging.getLevel (ThorLogging.begin st v out sl)
  ∧ ThorLogging.getLevel (ThorLogging.begin st v out sl) ≤ 6
  ∧ 0 ≤ ThorLogging.getLevel (ThorLogging.setLevel st v)
  ∧ ThorLogging.getLevel (ThorLogging.setLevel st v) ≤ 6 := by
  have hb : ThorLogging.getLevel (ThorLogging.begin st v out sl)
      = ThorLogging.thorlog_constrain v 0 6 := rfl
  have hs : ThorLogging.getLevel (ThorLogging.setLevel st v)
      = ThorLogging.thorlog_constrain v 0 6 := rfl
  rw [hb, hs]
  refine ⟨rfl, rfl, ?_, ?_, ?_, ?_⟩ <;>
    (unfold ThorLogging.thorlog_constrain; split_ifs <;> omega)

/-- C9: every one of the 14 logging entry points returns the engine state
unchanged — threshold, showLevel flag, sink reference and both hooks are
exactly as before the call, whether the call was gated out or emitted. -/
theorem c9_logging_is_read_only (st : ThorLogging) (msg : List Char) (args : List LogArg) :
    (ThorLogging.fatal st msg args).1 = st
  ∧ (ThorLogging.fatalln st msg args).1 = st
  ∧ (ThorLogging.error st msg args).1 = st
  ∧ (ThorLogging.errorln st msg args).1 = st
  ∧ (ThorLogging.warning st msg args).1 = st
  ∧ (ThorLogging.warningln st msg args).1 = st
  ∧ (ThorLogging.notice st msg args).1 = st
  ∧ (ThorLogging.noticeln st msg args).1 = st
  ∧ (ThorLogging.info st msg args).1 = st
  ∧ (ThorLogging.infoln st msg args).1 = st
  ∧ (ThorLogging.trace st msg args).1 = st
  ∧ (ThorLogging.traceln st msg args).1 = st
  ∧ (ThorLogging.verbose st msg args).1 = st
  ∧ (ThorLogging.verboseln st msg args).1 = st :=
  ⟨printLevel_fst st 1 false msg args, printLevel_fst st 1 true msg args,
   printLevel_fst st 2 false msg args, printLevel_fst st 2 true msg args,
   printLevel_fst st 3 false msg args, printLevel_fst st 3 true msg args,
   printLevel_fst st 4 false msg args, printLevel_fst st 4 true msg args,
   printLevel_fst st 4 false msg args, printLevel_fst st 4 true msg args,
   printLevel_fst st 5 false msg args, printLevel_fst st 5 true msg args,
   printLevel_fst st 6 false msg args, printLevel_fst st 6 true msg args⟩

/-- C10: for the severities 1..6 that the 14 public entry points pass to
printLevel, the tag-table index level-1 lies within [0, 5] of the
6-character table "FEWITV", the table lookup always succeeds (never reads
out of bounds), level 4 maps to the tag I, and both the info and notice
entry points (newline or not) invoke printLevel at level 4. -/
theorem c10_tag_lookup_in_bounds (L : Int) (h1 : 1 ≤ L) (h2 : L ≤ 6) :
    (0 ≤ L - 1 ∧ L - 1 < 6)
  ∧ (∃ c, ThorLogging.levelsIndex (L - 1) = some c)
  ∧ ThorLogging.levelsTable.length = 6
  ∧ ThorLogging.levelsIndex (4 - 1) = some 'I'
  ∧ (∀ st msg args,
        ThorLogging.info st msg args = ThorLogging.printLevel st 4 false msg args
      ∧ ThorLogging.notice st msg args = ThorLogging.printLevel st 4 false msg args
      ∧ ThorLogging.infoln st msg args = ThorLogging.printLevel st 4 true msg args
      ∧ ThorLogging.noticeln st msg args = ThorLogging.printLevel st 4 true msg args) := by
  refine ⟨⟨by omega, by omega⟩, ?_, by decide, by decide,
    fun st msg args => ⟨rfl, rfl, rfl, rfl⟩⟩
  interval_cases L
  · exact ⟨'F', by decide⟩
  · exact ⟨'E', by decide⟩
  · exact ⟨'W', by decide⟩
  · exact ⟨'I', by decide⟩
  · exact ⟨'T', by decide⟩
  · exact ⟨'V', by decide⟩

/-- C1: for severities L in [FATAL = 1, VERBOSE = 6] and thresholds T in
[SILENT = 0, VERBOSE = 6], a logging call at L is a complete no-op when
L > T (unchanged state, zero sink writes, no hook output, no tag, no
terminator), and — with the level tag shown — the call writes output to the
sink iff L ≤ T. -/
theorem c1_severity_gate (st : ThorLogging) (L : Int) (cr : Bool)
    (msg : List Char) (args : List LogArg)
    (h1 : 1 ≤ L) (h2 : L ≤ 6) (h3 : 0 ≤ st.level) (h4 : st.level ≤ 6) :
    (st.level < L → ThorLogging.printLevel st L cr msg args = (st, []))
  ∧ (st.showLevel = true →
      ((ThorLogging.printLevel st L cr msg args).2 ≠ [] ↔ L ≤ st.level)) := by
  constructor
  · intro hgt
    unfold ThorLogging.printLevel
    rw [if_pos hgt]
  · intro hsl
    constructor
    · intro hne
      by_contra hnot
      have hgt : st.level < L := by omega
      apply hne
      unfold ThorLogging.printLevel
      rw [if_pos hgt]
    · intro hle
      unfold ThorLogging.printLevel
      rw [if_neg (by omega)]
      simp [hsl, List.append_eq_nil]

/-- C7: for every emitted (non-gated) call, the newline variants append
exactly the single carriage-return character after everything else (prefix,
tag, body, suffix) — never a CR-LF pair — while the non-newline variants
append nothing: the two traces differ by exactly one trailing CR.  Each ln
entry point is printLevel with cr = true at its severity, each plain entry
point is printLevel with cr = false. -/
theorem c7_cr_terminator (st : ThorLogging) (L : Int) (msg : List Char)
    (args : List LogArg) (h1 : 1 ≤ L) (h2 : L ≤ st.level) :
    (ThorLogging.printLevel st L true msg args).2
        = (ThorLogging.printLevel st L false msg args).2 ++ ['\r']
  ∧ ThorLogging.fatalln st msg args = ThorLogging.printLevel st 1 true msg args
  ∧ ThorLogging.errorln st msg args = ThorLogging.printLevel st 2 true msg args
  ∧ ThorLogging.warningln st msg args = ThorLogging.printLevel st 3 true msg args
  ∧ ThorLogging.noticeln st msg args = ThorLogging.printLevel st 4 true msg args
  ∧ ThorLogging.infoln st msg args = ThorLogging.printLevel st 4 true msg args
  ∧ ThorLogging.traceln st msg args = ThorLogging.printLevel st 5 true msg args
  ∧ ThorLogging.verboseln st msg args = ThorLogging.printLevel st 6 true msg args
  ∧ ThorLogging.fatal st msg args = ThorLogging.printLevel st 1 false msg args
  ∧ ThorLogging.error st msg args = ThorLogging.printLevel st 2 false msg args
  ∧ ThorLogging.warning st msg args = ThorLogging.printLevel st 3 false msg args
  ∧ ThorLogging.notice st msg args = ThorLogging.printLevel st 4 false msg args
  ∧ ThorLogging.info st msg args = ThorLogging.printLevel st 4 false msg args
  ∧ ThorLogging.trace st msg args = ThorLogging.printLevel st 5 false msg args
  ∧ ThorLogging.verbose st msg args = ThorLogging.printLevel st 6 false msg args := by
  refine ⟨?_, rfl, rfl, rfl, rfl, rfl, rfl, rfl, rfl, rfl, rfl, rfl, rfl, rfl, rfl⟩
  have hgate : ¬(L > st.level) := by omega
  unfold ThorLogging.printLevel
  rw [if_neg hgate, if_neg hgate]
  simp [List.append_assoc]

/-- C2 counterexample: at the unrecognized specifier q the interpreter does
not forward the raw character to the sink — it writes nothing at all. -/
theorem c2_counterexample :
    ¬ ((ThorLogging.printFormat 'q' [LogArg.aInt 1]).1 = ['q'])
  ∧ (ThorLogging.printFormat 'q' [LogArg.aInt 1]).1 = [] := by
  constructor <;> decide

/-- C2 (amended): for every character c following a percent sign that is not
one of the recognized specifiers, the interpreter silently drops the
character — it writes nothing to the sink (rather than forwarding c
verbatim) — and consumes no variadic argument. -/
theorem c2_unrecognized_dropped (c : Char) (args : List LogArg)
    (h : c ∉ ['%', 's', 'c', 'C', 'd', 'i', 'l', 'u', 'x', 'X',
              'b', 'B', 't', 'T', 'D', 'F', 'p']) :
    ThorLogging.printFormat c args = ([], args) := by
  simp only [List.mem_cons, List.not_mem_nil, or_false, not_or] at h
  obtain ⟨hp, hs, hc, hC, hd, hi, hl, hu, hx, hX, hb, hB, ht, hT, hD, hF, hpt⟩ := h
  unfold ThorLogging.printFormat
  rw [if_neg hp, if_neg hs, if_neg hc, if_neg hC, if_neg (not_or.mpr ⟨hd, hi⟩),
    if_neg hl, if_neg hu, if_neg hx, if_neg hX, if_neg hb, if_neg hB, if_neg ht,
    if_neg hT, if_neg (not_or.mpr ⟨hD, hF⟩), if_neg hpt]

theorem c2_unrecognized_dropped_witness :
    ('q' ∉ ['%', 's', 'c', 'C', 'd', 'i', 'l', 'u', 'x', 'X',
            'b', 'B', 't', 'T', 'D', 'F', 'p'])
  ∧ ThorLogging.printFormat 'q' [LogArg.aInt 1] = ([], [LogArg.aInt 1]) :=
  ⟨by decide, c2_unrecognized_dropped 'q' [LogArg.aInt 1] (by decide)⟩

/-- C3 counterexample: for the integer argument 256 (whose low byte is 0x00)
the %C specifier emits 0x100 — three hex digits of the full value — not two
zero-padded hex digits of the low byte. -/
theorem c3_counterexample :
    (ThorLogging.printFormat 'C' [LogArg.aInt 256]).1 = ['0', 'x', '1', '0', '0']
  ∧ ¬ ((ThorLogging.printFormat 'C' [LogArg.aInt 256]).1 = ['0', 'x', '0', '0']) := by
  have he : (ThorLogging.printFormat 'C' [LogArg.aInt 256]).1
      = ['0', 'x', '1', '0', '0'] := by
    simp [ThorLogging.printFormat, vaInt, toU32, EspIdfPrint.printUnsignedLong,
      hexStr, hexDigit]
  exact ⟨he, by rw [he]; decide⟩

/-- C3 (amended): for every integer argument c in the byte range [0, 255]
consumed by %C — for such c the low byte is c itself — a printable c in
[0x20, 0x7E] is emitted as the single character c, and any other c is
emitted as 0x followed by exactly 2 zero-padded lowercase hex digits of c. -/
theorem c3_charC_low_byte (c : Int) (h0 : 0 ≤ c) (h1 : c ≤ 255) :
    ThorLogging.printFormat 'C' [LogArg.aInt c]
      = (if 0x20 ≤ c ∧ c ≤ 0x7E then [Char.ofNat c.toNat]
         else ['0', 'x'] ++ specHexPad 2 c.toNat, [])
  ∧ (specHexPad 2 c.toNat).length = 2 := by
  refine ⟨?_, specHexPad_length 2 _⟩
  have hmod : c % 256 = c := Int.emod_eq_of_lt h0 (by omega)
  have hmod32 : c % 4294967296 = c := Int.emod_eq_of_lt h0 (by omega)
  unfold ThorLogging.printFormat
  rw [if_neg (by decide), if_neg (by decide), if_neg (by decide), if_pos rfl]
  show (if 0x20 ≤ c ∧ c < 0x7F then [charOfInt c]
        else ['0', 'x'] ++ ((if c < 0x10 then ['0'] else []) ++
          EspIdfPrint.printUnsignedLong (toU32 c) 16), []) = _
  by_cases hc : 0x20 ≤ c ∧ c ≤ 0x7E
  · have hc' : 0x20 ≤ c ∧ c < 0x7F := ⟨hc.1, by omega⟩
    rw [if_pos hc', if_pos hc]
    simp [charOfInt, hmod]
  · have hc' : ¬(0x20 ≤ c ∧ c < 0x7F) := fun hh => hc ⟨hh.1, by omega⟩
    rw [if_neg hc', if_neg hc]
    have htu : toU32 c = c.toNat := by unfold toU32; rw [hmod32]
    have hpu : EspIdfPrint.printUnsignedLong c.toNat 16 = hexStr c.toNat := by
      simp [EspIdfPrint.printUnsignedLong]
    rw [htu, hpu]
    simp only [Prod.mk.injEq, and_true]
    congr 1
    by_cases h16 : c < 16
    · have hn : c.toNat < 16 := by omega
      rw [if_pos h16, hexStr_of_lt hn]
      show ['0', hexDigit c.toNat] = specHexPad 2 c.toNat
      simp [specHexPad, Nat.div_eq_of_lt hn, Nat.mod_eq_of_lt hn, hexDigit]
    · have hn : 16 ≤ c.toNat := by omega
      have hdl : c.toNat / 16 < 16 := by omega
      rw [if_neg h16, hexStr_of_ge hn, hexStr_of_lt hdl]
      show [hexDigit (c.toNat / 16), hexDigit (c.toNat % 16)] = specHexPad 2 c.toNat
      simp [specHexPad, Nat.mod_eq_of_lt hdl]

theorem c3_charC_low_byte_witness :
    ((0 : Int) ≤ 7 ∧ (7 : Int) ≤ 255)
  ∧ (ThorLogging.printFormat 'C' [LogArg.aInt 7]
      = (if 0x20 ≤ (7 : Int) ∧ (7 : Int) ≤ 0x7E then [Char.ofNat (7 : Int).toNat]
         else ['0', 'x'] ++ specHexPad 2 (7 : Int).toNat, [])
    ∧ (specHexPad 2 (7 : Int).toNat).length = 2) :=
  ⟨⟨by decide, by decide⟩, c3_charC_low_byte 7 (by decide) (by decide)⟩

/-- C5: for every unsigned long x below 2^32, the %X specifier writes
exactly 10 characters — 0x followed by exactly the 8 lowercase hexadecimal
digits of x, zero-padded on the left — and, end to end, after
begin(VERBOSE, sink) the call infoln("Hex: %X", 0xDEAD) makes the sink
receive the byte sequence of "I: Hex: 0x0000dead" followed by CR. -/
theorem c5_hex_fixed_width (x : Nat) (hx : x < 2 ^ 32) :
    ThorLogging.printFormat 'X' [LogArg.aULong x] = (['0', 'x'] ++ specHexPad 8 x, [])
  ∧ (['0', 'x'] ++ specHexPad 8 x).length = 10
  ∧ specHexPad 8 x = (List.range 8).reverse.map (fun i => hexDigit (x / 16 ^ i % 16))
  ∧ (ThorLogging.infoln (ThorLogging.begin ThorLogging.init 6 0 true)
       ['H', 'e', 'x', ':', ' ', '%', 'X'] [LogArg.aULong 0xDEAD]).2
      = ['I', ':', ' ', 'H', 'e', 'x', ':', ' ',
         '0', 'x', '0', '0', '0', '0', 'd', 'e', 'a', 'd', '\r'] := by
  refine ⟨?_, ?_, specHexPad_eq_map_range 8 x, ?_⟩
  · have hpe := printHexPadded_eq x (by simpa using hx)
    simp [ThorLogging.printFormat, vaULong, hpe]
  · simp [specHexPad_length]
  · simp [ThorLogging.infoln, ThorLogging.printLevel, ThorLogging.begin, ThorLogging.init,
      ThorLogging.thorlog_constrain, ThorLogging.print, ThorLogging.printFormat,
      ThorLogging.printHexPadded, ThorLogging.levelsIndex, ThorLogging.levelsTable,
      EspIdfPrint.printUnsignedLong, hexStr, hexDigit, vaULong]

theorem c5_hex_fixed_width_witness :
    ((48879 : Nat) < 2 ^ 32)
  ∧ (ThorLogging.printFormat 'X' [LogArg.aULong 48879]
        = (['0', 'x'] ++ specHexPad 8 48879, [])
    ∧ (['0', 'x'] ++ specHexPad 8 48879).length = 10
    ∧ specHexPad 8 48879
        = (List.range 8).reverse.map (fun i => hexDigit (48879 / 16 ^ i % 16))
    ∧ (ThorLogging.infoln (ThorLogging.begin ThorLogging.init 6 0 true)
         ['H', 'e', 'x', ':', ' ', '%', 'X'] [LogArg.aULong 0xDEAD]).2
        = ['I', ':', ' ', 'H', 'e', 'x', ':', ' ',
           '0', 'x', '0', '0', '0', '0', 'd', 'e', 'a', 'd', '\r']) :=
  ⟨by norm_num, c5_hex_fixed_width 48879 (by norm_num)⟩

/-- C6: the sink's binary conversion of an unsigned value yields its binary
digits most significant first with no leading zeros (zero yields the single
digit 0 and a nonzero value starts with the digit 1); a signed value in base
16 or 2 is first reinterpreted as its two's-complement 32-bit unsigned
pattern, so non-decimal output never carries a minus sign; consequently %b
on decimal 10 yields 1010, %B yields 0b1010, and zero yields 0 / 0b0. -/
theorem c6_binary_twos_complement (n : Nat) (hn : n < 2 ^ 64) :
    (EspIdfPrint.printBinary n
        = if n = 0 then ['0']
          else ((Nat.digits 2 n).map (fun d => if d = 1 then '1' else '0')).reverse)
  ∧ (n ≠ 0 → (EspIdfPrint.printBinary n).head? = some '1')
  ∧ (∀ i : Int, -2147483648 ≤ i → i < 2147483648 →
        EspIdfPrint.printSignedLong i 16 = hexStr (toU32 i)
      ∧ EspIdfPrint.printSignedLong i 2 = EspIdfPrint.printBinary (toU32 i)
      ∧ '-' ∉ EspIdfPrint.printSignedLong i 16
      ∧ '-' ∉ EspIdfPrint.printSignedLong i 2)
  ∧ ThorLogging.printFormat 'b' [LogArg.aUInt 10] = (['1', '0', '1', '0'], [])
  ∧ ThorLogging.printFormat 'B' [LogArg.aUInt 10] = (['0', 'b', '1', '0', '1', '0'], [])
  ∧ ThorLogging.printFormat 'b' [LogArg.aUInt 0] = (['0'], [])
  ∧ ThorLogging.printFormat 'B' [LogArg.aUInt 0] = (['0', 'b', '0'], []) := by
  refine ⟨printBinary_eq n hn, fun h0 => printBinary_head n hn h0, ?_,
    by decide, by decide, by decide, by decide⟩
  intro i hlo hhi
  have h16 : EspIdfPrint.printSignedLong i 16 = hexStr (toU32 i) := by
    unfold EspIdfPrint.printSignedLong
    rw [if_neg (by decide), if_pos rfl]
    by_cases hneg : i < 0
    · rw [if_pos hneg]
    · rw [if_neg hneg]
      have ht : toU32 i = i.toNat := by
        unfold toU32
        rw [Int.emod_eq_of_lt (by omega) (by omega)]
      rw [ht]
  have h2 : EspIdfPrint.printSignedLong i 2 = EspIdfPrint.printBinary (toU32 i) := by
    unfold EspIdfPrint.printSignedLong
    rw [if_neg (by decide), if_neg (by decide), if_pos rfl]
  exact ⟨h16, h2, h16 ▸ dash_not_mem_hexStr (toU32 i),
    h2 ▸ dash_not_mem_printBinary (toU32 i)⟩

theorem c6_binary_twos_complement_witness :
    ((10 : Nat) < 2 ^ 64)
  ∧ ((EspIdfPrint.printBinary 10
        = if (10 : Nat) = 0 then ['0']
          else ((Nat.digits 2 10).map (fun d => if d = 1 then '1' else '0')).reverse)
    ∧ ((10 : Nat) ≠ 0 → (EspIdfPrint.printBinary 10).head? = some '1')
    ∧ (∀ i : Int, -2147483648 ≤ i → i < 2147483648 →
          EspIdfPrint.printSignedLong i 16 = hexStr (toU32 i)
        ∧ EspIdfPrint.printSignedLong i 2 = EspIdfPrint.printBinary (toU32 i)
        ∧ '-' ∉ EspIdfPrint.printSignedLong i 16
        ∧ '-' ∉ EspIdfPrint.printSignedLong i 2)
    ∧ ThorLogging.printFormat 'b' [LogArg.aUInt 10] = (['1', '0', '1', '0'], [])
    ∧ ThorLogging.printFormat 'B' [LogArg.aUInt 10] = (['0', 'b', '1', '0', '1', '0'], [])
    ∧ ThorLogging.printFormat 'b' [LogArg.aUInt 0] = (['0'], [])
    ∧ ThorLogging.printFormat 'B' [LogArg.aUInt 0] = (['0', 'b', '0'], [])) :=
  ⟨by norm_num, c6_binary_twos_complement 10 (by norm_num)⟩

/-- C8: a format string ending in a trailing lone percent sign has that
percent sign consumed with no output and no argument consumption, the scan
terminating there; everything before it is processed exactly as if the
trailing percent sign were absent. -/
theorem c8_trailing_lone_percent (fmt : List Char) (args : List LogArg)
    (h : scanEndsClean fmt = true) :
    ThorLogging.print (fmt ++ ['%']) args = ThorLogging.print fmt args := by
  revert h
  induction fmt, args using ThorLogging.print.induct with
  | case1 args => intro _; rfl
  | case2 args =>
    intro h
    simp [scanEndsClean] at h
  | case3 args sp rest2 r ih =>
    intro h
    have hc : scanEndsClean rest2 = true := by simpa [scanEndsClean] using h
    simp [ThorLogging.print, ih hc]
  | case4 c rest args hc ih =>
    intro h
    cases rest with
    | nil => simp [ThorLogging.print, hc]
    | cons sp rest2 =>
      have hr : scanEndsClean (sp :: rest2) = true := by
        simpa [scanEndsClean, hc] using h
      simp only [List.cons_append] at ih ⊢
      simp [ThorLogging.print, hc]
      exact ⟨congrArg Prod.fst (ih hr), congrArg Prod.snd (ih hr)⟩

theorem c8_trailing_lone_percent_witness :
    (scanEndsClean ['a', '%', 'd'] = true)
  ∧ ThorLogging.print (['a', '%', 'd'] ++ ['%']) [LogArg.aInt 5]
      = ThorLogging.print ['a', '%', 'd'] [LogArg.aInt 5] :=
  ⟨by decide, c8_trailing_lone_percent ['a', '%', 'd'] [LogArg.aInt 5] (by decide)⟩

theorem c1_severity_gate_witness :
    (((⟨3, true, 0, none, none⟩ : ThorLogging).level < 5 →
        ThorLogging.printLevel ⟨3, true, 0, none, none⟩ 5 true ['a'] []
          = (⟨3, true, 0, none, none⟩, []))
  ∧ ((⟨3, true, 0, none, none⟩ : ThorLogging).showLevel = true →
      ((ThorLogging.printLevel ⟨3, true, 0, none, none⟩ 5 true ['a'] []).2 ≠ []
        ↔ 5 ≤ (⟨3, true, 0, none, none⟩ : ThorLogging).level))) :=
  c1_severity_gate ⟨3, true, 0, none, none⟩ 5 true ['a'] []
    (by decide) (by decide) (by decide) (by decide)

theorem c7_cr_terminator_witness :
    ((ThorLogging.printLevel ⟨6, true, 0, none, none⟩ 2 true ['h', 'i'] []).2
        = (ThorLogging.printLevel ⟨6, true, 0, none, none⟩ 2 false ['h', 'i'] []).2
          ++ ['\r'])
  ∧ ThorLogging.fatalln ⟨6, true, 0, none, none⟩ ['h', 'i'] []
      = ThorLogging.printLevel ⟨6, true, 0, none, none⟩ 1 true ['h', 'i'] []
  ∧ ThorLogging.errorln ⟨6, true, 0, none, none⟩ ['h', 'i'] []
      = ThorLogging.printLevel ⟨6, true, 0, none, none⟩ 2 true ['h', 'i'] []
  ∧ ThorLogging.warningln ⟨6, true, 0, none, none⟩ ['h', 'i'] []
      = ThorLogging.printLevel ⟨6, true, 0, none, none⟩ 3 true ['h', 'i'] []
  ∧ ThorLogging.noticeln ⟨6, true, 0, none, none⟩ ['h', 'i'] []
      = ThorLogging.printLevel ⟨6, true, 0, none, none⟩ 4 true ['h', 'i'] []
  ∧ ThorLogging.infoln ⟨6, true, 0, none, none⟩ ['h', 'i'] []
      = ThorLogging.printLevel ⟨6, true, 0, none, none⟩ 4 true ['h', 'i'] []
  ∧ ThorLogging.traceln ⟨6, true, 0, none, none⟩ ['h', 'i'] []
      = ThorLogging.printLevel ⟨6, true, 0, none, none⟩ 5 true ['h', 'i'] []
  ∧ ThorLogging.verboseln ⟨6, true, 0, none, none⟩ ['h', 'i'] []
      = ThorLogging.printLevel ⟨6, true, 0, none, none⟩ 6 true ['h', 'i'] []
  ∧ ThorLogging.fatal ⟨6, true, 0, none, none⟩ ['h', 'i'] []
      = ThorLogging.printLevel ⟨6, true, 0, none, none⟩ 1 false ['h', 'i'] []
  ∧ ThorLogging.error ⟨6, true, 0, none, none⟩ ['h', 'i'] []
      = ThorLogging.printLevel ⟨6, true, 0, none, none⟩ 2 false ['h', 'i'] []
  ∧ ThorLogging.warning ⟨6, true, 0, none, none⟩ ['h', 'i'] []
      = ThorLogging.printLevel ⟨6, true, 0, none, none⟩ 3 false ['h', 'i'] []
  ∧ ThorLogging.notice ⟨6, true, 0, none, none⟩ ['h', 'i'] []
      = ThorLogging.printLevel ⟨6, true, 0, none, none⟩ 4 false ['h', 'i'] []
  ∧ ThorLogging.info ⟨6, true, 0, none, none⟩ ['h', 'i'] []
      = ThorLogging.printLevel ⟨6, true, 0, none, none⟩ 4 false ['h', 'i'] []
  ∧ ThorLogging.trace ⟨6, true, 0, none, none⟩ ['h', 'i'] []
      = ThorLogging.printLevel ⟨6, true, 0, none, none⟩ 5 false ['h', 'i'] []
  ∧ ThorLogging.verbose ⟨6, true, 0, none, none⟩ ['h', 'i'] []
      = ThorLogging.printLevel ⟨6, true, 0, none, none⟩ 6 false ['h', 'i'] [] :=
  c7_cr_terminator ⟨6, true, 0, none, none⟩ 2 ['h', 'i'] [] (by decide) (by decide)

theorem c10_tag_lookup_in_bounds_witness :
    (0 ≤ (4 : Int) - 1 ∧ (4 : Int) - 1 < 6)
  ∧ (∃ c, ThorLogging.levelsIndex ((4 : Int) - 1) = some c)
  ∧ ThorLogging.levelsTable.length = 6
  ∧ ThorLogging.levelsIndex (4 - 1) = some 'I'
  ∧ (∀ st msg args,
        ThorLogging.info st msg args = ThorLogging.printLevel st 4 false msg args
      ∧ ThorLogging.notice st msg args = ThorLogging.printLevel st 4 false msg args
      ∧ ThorLogging.infoln st msg args = ThorLogging.printLevel st 4 true msg args
      ∧ ThorLogging.noticeln st msg args = ThorLogging.printLevel st 4 true msg args) :=
  c10_tag_lookup_in_bounds 4 (by decide) (by decide)
